import Mathlib

/-!
Shallow embedding of the batched flight-path curve renderer (`Curves` class,
`src/Curves.ts`) of the `flight-path` repository, together with proofs of the
testable properties stated in its specification.

Modelling conventions:
* JavaScript numbers are modelled by exact rationals `ℚ` (indices that may be
  negative by `ℤ`); the cumulative arclength attribute uses `ℝ` because it
  accumulates Euclidean square roots.
* The three shared `Float32Array` buffers are modelled as total functions
  `ℕ → ℚ` (positions, colors) and `ℕ → ℝ` (line distances); each write loop of
  the source is embedded as a function giving every buffer index its value
  after the loop (indices outside the written region keep their old value).
* `THREE.BufferAttribute.needsUpdate = true` (the GPU upload trigger inside
  `applyUpdates`) is observed through injected upload counters, as the spec's
  property 6 prescribes.
-/

/-- A 3D vector with exact rational coordinates (models `THREE.Vector3`). -/
structure Vec3 where
  x : ℚ
  y : ℚ
  z : ℚ
deriving DecidableEq, Repr

namespace Vec3

/-- Coordinate access used when flattening a vector into the position buffer:
`coord v 0 = v.x`, `coord v 1 = v.y`, otherwise `v.z`. -/
def coord (v : Vec3) (c : ℕ) : ℚ :=
  if c = 0 then v.x else if c = 1 then v.y else v.z

/-- Euclidean distance between two points; models `THREE.Vector3.distanceTo`
(`Math.sqrt` of the sum of squared coordinate differences). -/
noncomputable def distanceTo (a b : Vec3) : ℝ :=
  Real.sqrt (((a.x - b.x) ^ 2 + (a.y - b.y) ^ 2 + (a.z - b.z) ^ 2 : ℚ) : ℝ)

end Vec3

/-- An RGB color with components in `[0,1]` (models `THREE.Color`). -/
structure Color where
  r : ℚ
  g : ℚ
  b : ℚ
deriving DecidableEq, Repr

namespace Color

/-- Component access used when flattening a color into the color buffer. -/
def coord (c : Color) (k : ℕ) : ℚ :=
  if k = 0 then c.r else if k = 1 then c.g else c.b

end Color

/-- Geographic departure coordinate carried by curve metadata; the fields are
optional because the source reads them with the `?? 0` default. -/
structure GeoPoint where
  lat : Option ℚ
  lng : Option ℚ
deriving DecidableEq, Repr

/-- The opaque metadata blob attached to a curve; the renderer only inspects
its optional `departure` field. -/
structure Metadata where
  departure : Option GeoPoint
deriving DecidableEq, Repr

/-- The dynamically-typed `color` argument of `setCurve`/`setCurveColor`:
a hex number, a `THREE.Color` instance, or a `{type:'gradient', ...}` object
with optional departure coordinates. -/
inductive ColorArg where
  | num (n : ℕ)
  | rgb (c : Color)
  | gradient (departureLat departureLng : Option ℚ)
deriving DecidableEq, Repr

/-- Result of `_computeGradientParams`. -/
structure GradientParams where
  hue : ℚ
  saturation : ℚ
  lightnessStart : ℚ
  lightnessEnd : ℚ
deriving DecidableEq, Repr

/-- `THREE.MathUtils.clamp(value, lo, hi) = Math.max(lo, Math.min(hi, value))`. -/
def qclamp (value lo hi : ℚ) : ℚ :=
  max lo (min hi value)

/-- Truncation toward zero, as JavaScript division-based remainder uses. -/
def jsTrunc (q : ℚ) : ℤ :=
  if 0 ≤ q then ⌊q⌋ else -⌊-q⌋

/-- The JavaScript `%` remainder operator on rationals: `a - b * trunc (a / b)`
(sign follows the dividend). -/
def jsRem (a b : ℚ) : ℚ :=
  a - b * (jsTrunc (a / b) : ℚ)

/-- Helper of `THREE.Color.setHSL`. -/
def hue2rgb (p q t : ℚ) : ℚ :=
  let t1 := if t < 0 then t + 1 else t
  let t2 := if t1 > 1 then t1 - 1 else t1
  if t2 < 1 / 6 then p + (q - p) * 6 * t2
  else if t2 < 1 / 2 then q
  else if t2 < 2 / 3 then p + (q - p) * 6 * (2 / 3 - t2)
  else p

/-- `THREE.Color.setHSL(h, s, l)`: hue wraps by the Euclidean modulo 1,
saturation and lightness are clamped to `[0,1]`. -/
def setHSL (h s l : ℚ) : Color :=
  let h1 := h - (⌊h⌋ : ℚ)
  let s1 := qclamp s 0 1
  let l1 := qclamp l 0 1
  if s1 = 0 then ⟨l1, l1, l1⟩
  else
    let p := if l1 ≤ 1 / 2 then l1 * (1 + s1) else l1 + s1 - l1 * s1
    let q := 2 * l1 - p
    ⟨hue2rgb q p (h1 + 1 / 3), hue2rgb q p h1, hue2rgb q p (h1 - 1 / 3)⟩

/-- `THREE.Color.setHex`: extract the three bytes of a hex color number. -/
def hexToColor (n : ℕ) : Color :=
  ⟨((n / 65536) % 256 : ℕ) / 255, ((n / 256) % 256 : ℕ) / 255, (n % 256 : ℕ) / 255⟩

/-- `Curves._resolveSolidColor`: a `THREE.Color` instance is returned as is, a
number is decoded as hex, anything else falls back to the default `0x4488ff`. -/
def resolveSolidColor : ColorArg → Color
  | .rgb c => c
  | .num n => hexToColor n
  | .gradient _ _ => hexToColor 0x4488ff

/-- `Curves._computeGradientParams`: a gradient source point is taken from a
gradient-tagged color object, else from `metadata.departure`; absent
coordinates default to 0.  Hue is `((lng + 180) % 360) / 360` (JavaScript
remainder), saturation grows toward the equator, the lightness ramp is fixed
at `0.35 → 0.75`. -/
def computeGradientParams (color : ColorArg) (meta : Option Metadata) :
    Option GradientParams :=
  let source : Option (ℚ × ℚ) :=
    match color with
    | .gradient dlat dlng => some (dlat.getD 0, dlng.getD 0)
    | _ =>
      match meta with
      | some m =>
        match m.departure with
        | some d => some (d.lat.getD 0, d.lng.getD 0)
        | none => none
      | none => none
  match source with
  | none => none
  | some (lat, lng) =>
    let hue := jsRem (lng + 180) 360 / 360
    let latFactor := min (|lat| / 90) 1
    let saturation := qclamp (6 / 10 + 3 / 10 * (1 - latFactor)) 0 1
    some ⟨hue, saturation, 35 / 100, 75 / 100⟩

/-- The lightness value `_getColorForProgress` feeds into `setHSL`: the ramp
from `lightnessStart` to `lightnessEnd` over the clamped progress, clamped
again to `[0,1]`. -/
def gradientLightness (params : GradientParams) (progress : ℚ) : ℚ :=
  qclamp
    (params.lightnessStart +
      (params.lightnessEnd - params.lightnessStart) * qclamp progress 0 1)
    0 1

/-- `Curves._getColorForProgress`: HSL color at the given curve progress. -/
def getColorForProgress (params : GradientParams) (progress : ℚ) : Color :=
  setHSL params.hue params.saturation (gradientLightness params progress)

/-- Evaluation of the cubic Hermite polynomial used by the Catmull-Rom
segment (`CubicPoly.init` / `calc` of three.js): value `x0` and tangent `t0`
at `w = 0`, value `x1` and tangent `t1` at `w = 1`. -/
def cubicEval1 (x0 x1 t0 t1 w : ℚ) : ℚ :=
  x0 + t0 * w + (-3 * x0 + 3 * x1 - 2 * t0 - t1) * w ^ 2 +
    (2 * x0 - 2 * x1 + t0 + t1) * w ^ 3

/-- One coordinate of a Catmull-Rom segment through `p1, p2` with neighbour
points `p0, p3` and tension `0.5` (`initCatmullRom` of three.js). -/
def catmullSeg1 (p0 p1 p2 p3 w : ℚ) : ℚ :=
  cubicEval1 p1 p2 (1 / 2 * (p2 - p0)) (1 / 2 * (p3 - p1)) w

/-- A Catmull-Rom segment on vectors, coordinatewise. -/
def catmullSeg (p0 p1 p2 p3 : Vec3) (w : ℚ) : Vec3 :=
  ⟨catmullSeg1 p0.x p1.x p2.x p3.x w,
   catmullSeg1 p0.y p1.y p2.y p3.y w,
   catmullSeg1 p0.z p1.z p2.z p3.z w⟩

/-- Reflection `2 • a - b` used by three.js to extrapolate the missing
neighbour control point at an open end of the curve
(`tmp.subVectors(a, b).add(a)`). -/
def reflectPt (a b : Vec3) : Vec3 :=
  ⟨2 * a.x - b.x, 2 * a.y - b.y, 2 * a.z - b.z⟩

/-- The Catmull-Rom segment around integer knot `ip` of the control polygon,
evaluated at local weight `w`: the neighbours `p0`/`p3` are the adjacent
control points, or their reflections when the open end of the curve has no
neighbour (the non-closed branch of `THREE.CatmullRomCurve3.getPoint`). -/
def catmullPick (pts : List Vec3) (ip : ℤ) (w : ℚ) : Vec3 :=
  catmullSeg
    (if 0 < ip then pts.getD (ip - 1).toNat ⟨0, 0, 0⟩
     else reflectPt (pts.getD 0 ⟨0, 0, 0⟩) (pts.getD 1 ⟨0, 0, 0⟩))
    (pts.getD ip.toNat ⟨0, 0, 0⟩)
    (pts.getD (ip + 1).toNat ⟨0, 0, 0⟩)
    (if ip + 2 < (pts.length : ℤ) then pts.getD (ip + 2).toNat ⟨0, 0, 0⟩
     else reflectPt (pts.getD (pts.length - 1) ⟨0, 0, 0⟩)
       (pts.getD (pts.length - 2) ⟨0, 0, 0⟩))
    w

/-- Modelled from the spec: §4.1 describes the interpolating curve as
"Catmull-Rom class: passes through every control point, tangent-continuous"
(`THREE.CatmullRomCurve3.getPoint`, an external library).  The embedding uses
uniform knot spacing with tension `0.5` over exact rationals; the library
default centripetal knot spacing needs real fourth roots and is not expressible
in rational arithmetic, and it agrees with the uniform variant at every control
point, which is all the properties below inspect.  As in the library, the scaled
parameter `p = (length - 1) * t` is split into the knot `intPoint = ⌊p⌋` and
the weight `p - intPoint`; a zero weight at the last knot is turned into
weight 1 on the previous segment. -/
def catmullGetPoint (pts : List Vec3) (t : ℚ) : Vec3 :=
  if ((pts.length : ℚ) - 1) * t - (⌊((pts.length : ℚ) - 1) * t⌋ : ℚ) = 0 ∧
      ⌊((pts.length : ℚ) - 1) * t⌋ = (pts.length : ℤ) - 1 then
    catmullPick pts (⌊((pts.length : ℚ) - 1) * t⌋ - 1) 1
  else
    catmullPick pts ⌊((pts.length : ℚ) - 1) * t⌋
      (((pts.length : ℚ) - 1) * t - (⌊((pts.length : ℚ) - 1) * t⌋ : ℚ))

/-- `curve.getPoints(segmentsPerCurve)` in `setCurve`: `segments + 1` samples
of the curve at uniform parameters `d / segments`. -/
def samplePoints (segments : ℕ) (pts : List Vec3) : List Vec3 :=
  (List.range (segments + 1)).map fun d => catmullGetPoint pts ((d : ℚ) / (segments : ℚ))

/-- Immutable construction-time configuration of the renderer
(`maxCurves`, `segmentsPerCurve` of the `Curves` constructor options;
`verticesPerSegment` is the constant 2). -/
structure Config where
  maxCurves : ℕ
  segmentsPerCurve : ℕ
deriving DecidableEq, Repr

/-- `this.verticesPerCurve = this.segmentsPerCurve * this.verticesPerSegment`. -/
def Config.verticesPerCurve (cfg : Config) : ℕ :=
  cfg.segmentsPerCurve * 2

/-- The per-slot record stored in `this.curveData`. -/
structure CurveData where
  controlPoints : List Vec3
  color : ColorArg
  visible : Bool
  metadata : Option Metadata
deriving DecidableEq, Repr

/-- The mutable state of one `Curves` instance: the three pre-allocated
shared buffers, the per-slot records, the draw-range counter, the dash
configuration (mutable through `setDashPattern`), the three dirty flags, and
injected upload counters observing each `needsUpdate = true` trigger of
`applyUpdates`. -/
structure CurvesState where
  positions : ℕ → ℚ
  colors : ℕ → ℚ
  lineDistances : ℕ → ℝ
  curveData : ℕ → CurveData
  currentCurveCount : ℤ
  drawRange : ℤ
  dashSize : ℚ
  gapSize : ℚ
  materialDashed : Bool
  needsPositionUpdate : Bool
  needsColorUpdate : Bool
  needsLineDistanceUpdate : Bool
  uploadPositionCount : ℕ
  uploadColorCount : ℕ
  uploadDistanceCount : ℕ

/-- `initialize()` together with the constructor: buffers filled with zero, a
degenerate draw range, every slot invisible with no control points and the
default white color, dash parameters from the constructor options. -/
noncomputable def initState (dashSize gapSize : ℚ) : CurvesState where
  positions := fun _ => 0
  colors := fun _ => 0
  lineDistances := fun _ => 0
  curveData := fun _ => ⟨[], .num 0xFFFFFF, false, none⟩
  currentCurveCount := 0
  drawRange := 0
  dashSize := dashSize
  gapSize := gapSize
  materialDashed := decide (dashSize > 0)
  needsPositionUpdate := false
  needsColorUpdate := false
  needsLineDistanceUpdate := false
  uploadPositionCount := 0
  uploadColorCount := 0
  uploadDistanceCount := 0

/-- Index region of slot `i` inside the one-float-per-vertex buffer
(`lineDistances`): `[i * verticesPerCurve, (i+1) * verticesPerCurve)`. -/
def distRegion (cfg : Config) (i n : ℕ) : Prop :=
  i * cfg.verticesPerCurve ≤ n ∧ n < i * cfg.verticesPerCurve + cfg.verticesPerCurve

/-- Index region of slot `i` inside a three-floats-per-vertex buffer
(`positions`, `colors`): `[3 * i * verticesPerCurve, 3 * (i+1) * verticesPerCurve)`. -/
def vecRegion (cfg : Config) (i n : ℕ) : Prop :=
  3 * (i * cfg.verticesPerCurve) ≤ n ∧
    n < 3 * (i * cfg.verticesPerCurve) + 3 * cfg.verticesPerCurve

instance (cfg : Config) (i n : ℕ) : Decidable (distRegion cfg i n) := by
  unfold distRegion; infer_instance

instance (cfg : Config) (i n : ℕ) : Decidable (vecRegion cfg i n) := by
  unfold vecRegion; infer_instance

/-- The position-buffer write loop of `setCurve`: for each segment `s`, the
vertices `2s` and `2s + 1` of slot `i` receive the sample points `s` and
`s + 1`.  In closed form: buffer index `n` in the slot's region holds
coordinate `n % 3` of sample point `v / 2 + v % 2` where `v = (n - base) / 3`
is the vertex within the slot. -/
def writePositions (cfg : Config) (old : ℕ → ℚ) (i : ℕ) (sp : List Vec3) :
    ℕ → ℚ := fun n =>
  if vecRegion cfg i n then
    let m := n - 3 * (i * cfg.verticesPerCurve)
    let v := m / 3
    Vec3.coord (sp.getD (v / 2 + v % 2) ⟨0, 0, 0⟩) (m % 3)
  else old n

/-- Cumulative arclength `distance` of the `setCurve` loop just before sample
point `s` is processed: the sum of the Euclidean lengths of the first `s`
segments of the sampled polyline. -/
noncomputable def cumulativeLength (sp : List Vec3) : ℕ → ℝ
  | 0 => 0
  | s + 1 =>
    cumulativeLength sp s + Vec3.distanceTo (sp.getD s ⟨0, 0, 0⟩) (sp.getD (s + 1) ⟨0, 0, 0⟩)

/-- The line-distance write loop of `setCurve`: vertex `2s` of the slot gets
the cumulative length before segment `s` and vertex `2s + 1` the cumulative
length after it; in closed form, vertex `m` of the slot gets
`cumulativeLength sp (m / 2 + m % 2)`. -/
noncomputable def writeDistances (cfg : Config) (old : ℕ → ℝ) (i : ℕ)
    (sp : List Vec3) : ℕ → ℝ := fun n =>
  if distRegion cfg i n then
    let m := n - i * cfg.verticesPerCurve
    cumulativeLength sp (m / 2 + m % 2)
  else old n

/-- The color each vertex of a slot receives in `_applyColorToCurve`: with
gradient parameters, the ramp color at progress `(s + k) / segments` for
vertex `2s + k`; otherwise the resolved solid color everywhere. -/
def vertexColor (cfg : Config) (cd : CurveData) (v : ℕ) : Color :=
  match computeGradientParams cd.color cd.metadata with
  | some params =>
    getColorForProgress params (((v / 2 + v % 2 : ℕ) : ℚ) / (cfg.segmentsPerCurve : ℚ))
  | none => resolveSolidColor cd.color

/-- The color-buffer write loop of `_applyColorToCurve` in closed form. -/
def writeColors (cfg : Config) (old : ℕ → ℚ) (i : ℕ) (cd : CurveData) :
    ℕ → ℚ := fun n =>
  if vecRegion cfg i n then
    let m := n - 3 * (i * cfg.verticesPerCurve)
    Color.coord (vertexColor cfg cd (m / 3)) (m % 3)
  else old n

/-- Zeroing loop of `hideCurve` over the position region of a slot. -/
def zeroVecRegion (cfg : Config) (old : ℕ → ℚ) (i : ℕ) : ℕ → ℚ := fun n =>
  if vecRegion cfg i n then 0 else old n

/-- Zeroing loop of `hideCurve` over the line-distance region of a slot. -/
def zeroDistRegion (cfg : Config) (old : ℕ → ℝ) (i : ℕ) : ℕ → ℝ := fun n =>
  if distRegion cfg i n then 0 else old n

/-- `Curves._applyColorToCurve(curveIndex)`: bounds- and visibility-guarded
recomputation of the slot's color region, marking the color attribute dirty. -/
def applyColorToCurve (cfg : Config) (s : CurvesState) (i : ℕ) : CurvesState :=
  if i < cfg.maxCurves then
    let cd := s.curveData i
    if cd.visible then
      { s with
        colors := writeColors cfg s.colors i cd
        needsColorUpdate := true }
    else s
  else s

/-- `Curves.updateDrawRange()`. -/
def updateDrawRange (cfg : Config) (s : CurvesState) : CurvesState :=
  { s with drawRange := s.currentCurveCount * (cfg.verticesPerCurve : ℤ) }

/-- `Curves.setCurve(curveIndex, controlPoints, color, metadata)`.  The slot
index is an integer because the source guards `curveIndex < 0`; an
out-of-range index or fewer than two control points is a silent no-op.
Otherwise the slot record is replaced (visible, `metadata ?? null`), the
sampled polyline is written into the position and line-distance regions,
`_applyColorToCurve` runs, the position and distance attributes are marked
dirty, and a slot index at or above `currentCurveCount` raises it to
`curveIndex + 1` and refreshes the draw range. -/
noncomputable def setCurve (cfg : Config) (s : CurvesState) (curveIndex : ℤ)
    (controlPoints : List Vec3) (color : ColorArg) (meta : Option Metadata) :
    CurvesState :=
  if curveIndex < 0 ∨ (cfg.maxCurves : ℤ) ≤ curveIndex then s
  else if controlPoints.length < 2 then s
  else
    let i := curveIndex.toNat
    let cd : CurveData := ⟨controlPoints, color, true, meta⟩
    let sp := samplePoints cfg.segmentsPerCurve controlPoints
    let s1 : CurvesState :=
      { s with
        curveData := Function.update s.curveData i cd
        positions := writePositions cfg s.positions i sp
        lineDistances := writeDistances cfg s.lineDistances i sp }
    let s2 := applyColorToCurve cfg s1 i
    let s3 : CurvesState :=
      { s2 with needsPositionUpdate := true, needsLineDistanceUpdate := true }
    if s3.currentCurveCount ≤ curveIndex then
      updateDrawRange cfg { s3 with currentCurveCount := curveIndex + 1 }
    else s3

/-- `Curves.setCurveColor(curveIndex, color, metadata)`: bounds-guarded; a
slot that is not visible is left completely untouched.  The optional
`metadata` argument distinguishes "absent" (`undefined`, keep the stored
metadata) from an explicit value (stored through `?? null`). -/
def setCurveColor (cfg : Config) (s : CurvesState) (curveIndex : ℤ)
    (color : ColorArg) (meta : Option (Option Metadata)) : CurvesState :=
  if curveIndex < 0 ∨ (cfg.maxCurves : ℤ) ≤ curveIndex then s
  else
    let i := curveIndex.toNat
    let cd := s.curveData i
    if cd.visible then
      let cd' : CurveData :=
        { cd with color := color, metadata := meta.getD cd.metadata }
      applyColorToCurve cfg { s with curveData := Function.update s.curveData i cd' } i
    else s

/-- `Curves.hideCurve(curveIndex)`: bounds-guarded; marks the slot invisible,
zeroes its position and line-distance regions (the colors are left as they
are), and marks those two attributes dirty.  The draw range is not changed. -/
noncomputable def hideCurve (cfg : Config) (s : CurvesState) (curveIndex : ℤ) :
    CurvesState :=
  if curveIndex < 0 ∨ (cfg.maxCurves : ℤ) ≤ curveIndex then s
  else
    let i := curveIndex.toNat
    { s with
      curveData := Function.update s.curveData i { s.curveData i with visible := false }
      positions := zeroVecRegion cfg s.positions i
      lineDistances := zeroDistRegion cfg s.lineDistances i
      needsPositionUpdate := true
      needsLineDistanceUpdate := true }

/-- `Curves.setVisibleCurveCount(count)`: stores `Math.min(count, maxCurves)`
(there is no lower clamp in the source) and refreshes the draw range. -/
def setVisibleCurveCount (cfg : Config) (s : CurvesState) (count : ℤ) :
    CurvesState :=
  updateDrawRange cfg { s with currentCurveCount := min count (cfg.maxCurves : ℤ) }

/-- `Curves.applyUpdates()`: flushes each dirty flag at most once, counting
the `needsUpdate = true` triggers.  The line-distance flush additionally
requires `dashSize > 0`; with `dashSize === 0` the flag is cleared without an
upload, and with a negative dash size nothing happens to it. -/
def applyUpdates (s : CurvesState) : CurvesState :=
  let s1 :=
    if s.needsPositionUpdate then
      { s with
        uploadPositionCount := s.uploadPositionCount + 1
        needsPositionUpdate := false }
    else s
  let s2 :=
    if s1.needsColorUpdate then
      { s1 with
        uploadColorCount := s1.uploadColorCount + 1
        needsColorUpdate := false }
    else s1
  if s2.dashSize > 0 ∧ s2.needsLineDistanceUpdate then
    { s2 with
      uploadDistanceCount := s2.uploadDistanceCount + 1
      needsLineDistanceUpdate := false }
  else if s2.dashSize = 0 then { s2 with needsLineDistanceUpdate := false }
  else s2

/-- `Curves.setDashPattern(dashSize, gapSize)`: clamps both values to `≥ 0`,
is a no-op when neither changes, and otherwise swaps the material
(`updateMaterial`), forcing a line-distance re-upload when the new dash size
is positive. -/
def setDashPattern (s : CurvesState) (dashSize gapSize : ℚ) : CurvesState :=
  let nextDash := max 0 dashSize
  let nextGap := max 0 gapSize
  if s.dashSize = nextDash ∧ s.gapSize = nextGap then s
  else
    { s with
      dashSize := nextDash
      gapSize := nextGap
      materialDashed := decide (nextDash > 0)
      needsLineDistanceUpdate :=
        if nextDash > 0 then true else s.needsLineDistanceUpdate }

/-- `Curves.getCurve(curveIndex)`: the stored control points of a visible
slot with at least two of them, else `null`. -/
def getCurve (cfg : Config) (s : CurvesState) (curveIndex : ℤ) :
    Option (List Vec3) :=
  if curveIndex < 0 ∨ (cfg.maxCurves : ℤ) ≤ curveIndex then none
  else
    let cd := s.curveData curveIndex.toNat
    if cd.visible = false ∨ cd.controlPoints.length < 2 then none
    else some cd.controlPoints

/-- `Curves.getPointAt(curveIndex, t)`: zero vector without a valid curve.
Modelled from the spec: §4.1 says `getPointAt` re-derives the interpolating
curve from the stored control points and samples it at `t ∈ [0,1]`; the
library reparametrizes by numerically integrated arc length
(`getUtoTmapping`), which is not expressible exactly and fixes the endpoints
`t = 0` and `t = 1`, the only parameters the properties below use, where it
agrees with direct parameter evaluation. -/
def getPointAt (cfg : Config) (s : CurvesState) (curveIndex : ℤ) (t : ℚ) :
    Vec3 :=
  match getCurve cfg s curveIndex with
  | none => ⟨0, 0, 0⟩
  | some pts => catmullGetPoint pts t

/-- The mutating operations of the renderer's public interface. -/
inductive Op where
  | set (curveIndex : ℤ) (controlPoints : List Vec3) (color : ColorArg)
      (meta : Option Metadata)
  | setColor (curveIndex : ℤ) (color : ColorArg) (meta : Option (Option Metadata))
  | hide (curveIndex : ℤ)
  | setVisibleCount (count : ℤ)
  | applyAll
  | setDash (dashSize gapSize : ℚ)

/-- One operation applied to the state. -/
noncomputable def step (cfg : Config) (s : CurvesState) : Op → CurvesState
  | .set i pts color meta => setCurve cfg s i pts color meta
  | .setColor i color meta => setCurveColor cfg s i color meta
  | .hide i => hideCurve cfg s i
  | .setVisibleCount n => setVisibleCurveCount cfg s n
  | .applyAll => applyUpdates s
  | .setDash d g => setDashPattern s d g

/-- A sequence of operations applied in order. -/
noncomputable def runOps (cfg : Config) (s : CurvesState) (ops : List Op) :
    CurvesState :=
  ops.foldl (step cfg) s

/-- States reachable from initialization by any sequence of operations. -/
inductive Reachable (cfg : Config) : CurvesState → Prop where
  | init (dashSize gapSize : ℚ) : Reachable cfg (initState dashSize gapSize)
  | next {s : CurvesState} (op : Op) : Reachable cfg s → Reachable cfg (step cfg s op)

/-- Whether an operation is a `setVisibleCurveCount` call. -/
def Op.isSetVisibleCount : Op → Bool
  | .setVisibleCount _ => true
  | _ => false

/-- The operation is one of the three slot-mutating calls (`setCurve`,
`setCurveColor`, `hideCurve`) and its slot argument is `i`. -/
def TargetsSlot (op : Op) (i : ℕ) : Prop :=
  match op with
  | .set curveIndex _ _ _ => curveIndex = (i : ℤ)
  | .setColor curveIndex _ _ => curveIndex = (i : ℤ)
  | .hide curveIndex => curveIndex = (i : ℤ)
  | _ => False

/-- The behavior the specification asserts for `setVisibleCurveCount`: the
requested count clamped to the interval `[0, maxCurves]`.  Stated only to be
compared with the implementation, which has no lower clamp. -/
def specClampedCount (n maxCurves : ℤ) : ℤ :=
  max 0 (min n maxCurves)

/-- The all-zero state of a slot's buffer regions: the positions and
line-distance entries of slot `j` are all zero. -/
def SlotGeometryZero (cfg : Config) (s : CurvesState) (j : ℕ) : Prop :=
  (∀ n, vecRegion cfg j n → s.positions n = 0) ∧
    ∀ n, distRegion cfg j n → s.lineDistances n = 0

/-- The inductive invariant behind claim C3: an invisible slot has all-zero
position and line-distance regions, and a slot that was never set (no stored
control points) is additionally invisible with an all-zero color region. -/
def SlotsInv (cfg : Config) (s : CurvesState) : Prop :=
  ∀ j, j < cfg.maxCurves →
    ((s.curveData j).visible = false → SlotGeometryZero cfg s j) ∧
      ((s.curveData j).controlPoints = [] →
        (s.curveData j).visible = false ∧ ∀ n, vecRegion cfg j n → s.colors n = 0)

/-! ### Structure extensionality -/

theorem CurvesState.ext' {s t : CurvesState}
    (h1 : s.positions = t.positions) (h2 : s.colors = t.colors)
    (h3 : s.lineDistances = t.lineDistances) (h4 : s.curveData = t.curveData)
    (h5 : s.currentCurveCount = t.currentCurveCount) (h6 : s.drawRange = t.drawRange)
    (h7 : s.dashSize = t.dashSize) (h8 : s.gapSize = t.gapSize)
    (h9 : s.materialDashed = t.materialDashed)
    (h10 : s.needsPositionUpdate = t.needsPositionUpdate)
    (h11 : s.needsColorUpdate = t.needsColorUpdate)
    (h12 : s.needsLineDistanceUpdate = t.needsLineDistanceUpdate)
    (h13 : s.uploadPositionCount = t.uploadPositionCount)
    (h14 : s.uploadColorCount = t.uploadColorCount)
    (h15 : s.uploadDistanceCount = t.uploadDistanceCount) : s = t := by
  cases s; cases t
  simp_all

theorem Vec3.distanceTo_nonneg (a b : Vec3) : 0 ≤ Vec3.distanceTo a b :=
  Real.sqrt_nonneg _

/-! ### Helper lemmas: Catmull-Rom endpoint evaluation -/

theorem catmullSeg1_zero (p0 p1 p2 p3 : ℚ) : catmullSeg1 p0 p1 p2 p3 0 = p1 := by
  unfold catmullSeg1 cubicEval1; ring

theorem catmullSeg1_one (p0 p1 p2 p3 : ℚ) : catmullSeg1 p0 p1 p2 p3 1 = p2 := by
  unfold catmullSeg1 cubicEval1; ring

theorem catmullSeg_zero (p0 p1 p2 p3 : Vec3) : catmullSeg p0 p1 p2 p3 0 = p1 := by
  unfold catmullSeg
  rw [catmullSeg1_zero, catmullSeg1_zero, catmullSeg1_zero]

theorem catmullSeg_one (p0 p1 p2 p3 : Vec3) : catmullSeg p0 p1 p2 p3 1 = p2 := by
  unfold catmullSeg
  rw [catmullSeg1_one, catmullSeg1_one, catmullSeg1_one]

theorem catmullPick_weight_zero (pts : List Vec3) (ip : ℤ) :
    catmullPick pts ip 0 = pts.getD ip.toNat ⟨0, 0, 0⟩ := by
  unfold catmullPick; exact catmullSeg_zero _ _ _ _

theorem catmullPick_weight_one (pts : List Vec3) (ip : ℤ) :
    catmullPick pts ip 1 = pts.getD (ip + 1).toNat ⟨0, 0, 0⟩ := by
  unfold catmullPick; exact catmullSeg_one _ _ _ _

/-- The interpolating curve starts at the first control point. -/
theorem catmullGetPoint_zero (pts : List Vec3) (h : 2 ≤ pts.length) :
    catmullGetPoint pts 0 = pts.getD 0 ⟨0, 0, 0⟩ := by
  have hfl0 : ⌊((pts.length : ℚ) - 1) * 0⌋ = 0 := by
    rw [mul_zero]; exact Int.floor_zero
  unfold catmullGetPoint
  rw [if_neg]
  · rw [hfl0, mul_zero]
    simpa using catmullPick_weight_zero pts 0
  · rintro ⟨-, h2⟩
    rw [hfl0] at h2
    omega

/-- The interpolating curve ends at the last control point. -/
theorem catmullGetPoint_one (pts : List Vec3) (h : 2 ≤ pts.length) :
    catmullGetPoint pts 1 = pts.getD (pts.length - 1) ⟨0, 0, 0⟩ := by
  have hfl : ⌊((pts.length : ℚ) - 1) * 1⌋ = (pts.length : ℤ) - 1 := by
    rw [mul_one]
    rw [show ((pts.length : ℚ) - 1) = (((pts.length : ℤ) - 1 : ℤ) : ℚ) by push_cast; ring]
    exact Int.floor_intCast _
  rw [catmullGetPoint, if_pos]
  · rw [catmullPick_weight_one, hfl]
    congr 1
    omega
  · exact ⟨by rw [hfl]; push_cast; ring, hfl⟩

/-! ### Helper lemmas: slot regions -/

/-- Two different slots have disjoint `[i*V, i*V + V)` regions. -/
theorem region_disjoint {V i j n : ℕ} (hij : i ≠ j)
    (h1 : i * V ≤ n) (h2 : n < i * V + V) (h3 : j * V ≤ n) (h4 : n < j * V + V) :
    False := by
  have hi : i * V < (j + 1) * V := by
    calc i * V ≤ n := h1
    _ < j * V + V := h4
    _ = (j + 1) * V := by ring
  have hj : j * V < (i + 1) * V := by
    calc j * V ≤ n := h3
    _ < i * V + V := h2
    _ = (i + 1) * V := by ring
  have hi' : i < j + 1 := lt_of_mul_lt_mul_right hi (Nat.zero_le V)
  have hj' : j < i + 1 := lt_of_mul_lt_mul_right hj (Nat.zero_le V)
  omega

theorem distRegion_disjoint {cfg : Config} {i j n : ℕ} (hij : i ≠ j)
    (hi : distRegion cfg i n) (hj : distRegion cfg j n) : False :=
  region_disjoint hij hi.1 hi.2 hj.1 hj.2

theorem vecRegion_disjoint {cfg : Config} {i j n : ℕ} (hij : i ≠ j)
    (hi : vecRegion cfg i n) (hj : vecRegion cfg j n) : False := by
  obtain ⟨hi1, hi2⟩ := hi
  obtain ⟨hj1, hj2⟩ := hj
  have e1 : i * (3 * cfg.verticesPerCurve) = 3 * (i * cfg.verticesPerCurve) := by ring
  have e2 : j * (3 * cfg.verticesPerCurve) = 3 * (j * cfg.verticesPerCurve) := by ring
  exact region_disjoint (V := 3 * cfg.verticesPerCurve) (n := n) hij
    (by rw [e1]; exact hi1) (by rw [e1]; exact hi2)
    (by rw [e2]; exact hj1) (by rw [e2]; exact hj2)

/-! ### Helper lemmas: buffer writes outside and inside a slot's region -/

theorem writePositions_outside {cfg : Config} {old : ℕ → ℚ} {i : ℕ}
    {sp : List Vec3} {n : ℕ} (h : ¬ vecRegion cfg i n) :
    writePositions cfg old i sp n = old n := by
  unfold writePositions; rw [if_neg h]

theorem writeColors_outside {cfg : Config} {old : ℕ → ℚ} {i : ℕ}
    {cd : CurveData} {n : ℕ} (h : ¬ vecRegion cfg i n) :
    writeColors cfg old i cd n = old n := by
  unfold writeColors; rw [if_neg h]

theorem writeDistances_outside {cfg : Config} {old : ℕ → ℝ} {i : ℕ}
    {sp : List Vec3} {n : ℕ} (h : ¬ distRegion cfg i n) :
    writeDistances cfg old i sp n = old n := by
  unfold writeDistances; rw [if_neg h]

theorem zeroVecRegion_outside {cfg : Config} {old : ℕ → ℚ} {i n : ℕ}
    (h : ¬ vecRegion cfg i n) : zeroVecRegion cfg old i n = old n := by
  unfold zeroVecRegion; rw [if_neg h]

theorem zeroVecRegion_inside {cfg : Config} {old : ℕ → ℚ} {i n : ℕ}
    (h : vecRegion cfg i n) : zeroVecRegion cfg old i n = 0 := by
  unfold zeroVecRegion; rw [if_pos h]

theorem zeroDistRegion_outside {cfg : Config} {old : ℕ → ℝ} {i n : ℕ}
    (h : ¬ distRegion cfg i n) : zeroDistRegion cfg old i n = old n := by
  unfold zeroDistRegion; rw [if_neg h]

theorem zeroDistRegion_inside {cfg : Config} {old : ℕ → ℝ} {i n : ℕ}
    (h : distRegion cfg i n) : zeroDistRegion cfg old i n = 0 := by
  unfold zeroDistRegion; rw [if_pos h]

theorem writeDistances_inside {cfg : Config} {old : ℕ → ℝ} {i : ℕ}
    {sp : List Vec3} {n : ℕ} (h : distRegion cfg i n) :
    writeDistances cfg old i sp n =
      cumulativeLength sp
        ((n - i * cfg.verticesPerCurve) / 2 + (n - i * cfg.verticesPerCurve) % 2) := by
  unfold writeDistances; rw [if_pos h]

/-! ### Helper lemmas: cumulative arclength -/

theorem cumulativeLength_mono (sp : List Vec3) : Monotone (cumulativeLength sp) := by
  apply monotone_nat_of_le_succ
  intro s
  have := Vec3.distanceTo_nonneg (sp.getD s ⟨0, 0, 0⟩) (sp.getD (s + 1) ⟨0, 0, 0⟩)
  simp only [cumulativeLength]
  linarith

/-! ### Helper lemmas: characterizing the operations -/

/-- Both rejection branches of `setCurve` leave the state untouched. -/
theorem setCurve_invalid {cfg : Config} {s : CurvesState} {curveIndex : ℤ}
    {pts : List Vec3} {color : ColorArg} {meta : Option Metadata}
    (h : curveIndex < 0 ∨ (cfg.maxCurves : ℤ) ≤ curveIndex ∨ pts.length < 2) :
    setCurve cfg s curveIndex pts color meta = s := by
  by_cases hb : curveIndex < 0 ∨ (cfg.maxCurves : ℤ) ≤ curveIndex
  · unfold setCurve; rw [if_pos hb]
  · have hp : pts.length < 2 := by tauto
    unfold setCurve; rw [if_neg hb, if_pos hp]

/-- A valid `setCurve` call, written out as a single record update. -/
theorem setCurve_valid {cfg : Config} {s : CurvesState} {curveIndex : ℤ}
    {pts : List Vec3} {color : ColorArg} {meta : Option Metadata}
    (h1 : 0 ≤ curveIndex) (h2 : curveIndex < (cfg.maxCurves : ℤ))
    (h3 : 2 ≤ pts.length) :
    setCurve cfg s curveIndex pts color meta =
      { s with
        curveData :=
          Function.update s.curveData curveIndex.toNat ⟨pts, color, true, meta⟩
        positions :=
          writePositions cfg s.positions curveIndex.toNat
            (samplePoints cfg.segmentsPerCurve pts)
        colors := writeColors cfg s.colors curveIndex.toNat ⟨pts, color, true, meta⟩
        lineDistances :=
          writeDistances cfg s.lineDistances curveIndex.toNat
            (samplePoints cfg.segmentsPerCurve pts)
        needsPositionUpdate := true
        needsColorUpdate := true
        needsLineDistanceUpdate := true
        currentCurveCount :=
          if s.currentCurveCount ≤ curveIndex then curveIndex + 1
          else s.currentCurveCount
        drawRange :=
          if s.currentCurveCount ≤ curveIndex then
            (curveIndex + 1) * (cfg.verticesPerCurve : ℤ)
          else s.drawRange } := by
  have hni : ¬(curveIndex < 0 ∨ (cfg.maxCurves : ℤ) ≤ curveIndex) := by omega
  have hnp : ¬(pts.length < 2) := by omega
  have hi : curveIndex.toNat < cfg.maxCurves := by omega
  unfold setCurve
  rw [if_neg hni, if_neg hnp]
  simp only [applyColorToCurve, updateDrawRange, Function.update_same, hi, if_true]
  split_ifs with hc <;> rfl

/-- `hideCurve` with an out-of-range index is a no-op. -/
theorem hideCurve_invalid {cfg : Config} {s : CurvesState} {curveIndex : ℤ}
    (h : curveIndex < 0 ∨ (cfg.maxCurves : ℤ) ≤ curveIndex) :
    hideCurve cfg s curveIndex = s := by
  unfold hideCurve; rw [if_pos h]

/-- A valid `hideCurve` call, written out as a single record update. -/
theorem hideCurve_valid {cfg : Config} {s : CurvesState} {curveIndex : ℤ}
    (h1 : 0 ≤ curveIndex) (h2 : curveIndex < (cfg.maxCurves : ℤ)) :
    hideCurve cfg s curveIndex =
      { s with
        curveData :=
          Function.update s.curveData curveIndex.toNat
            { s.curveData curveIndex.toNat with visible := false }
        positions := zeroVecRegion cfg s.positions curveIndex.toNat
        lineDistances := zeroDistRegion cfg s.lineDistances curveIndex.toNat
        needsPositionUpdate := true
        needsLineDistanceUpdate := true } := by
  have hni : ¬(curveIndex < 0 ∨ (cfg.maxCurves : ℤ) ≤ curveIndex) := by omega
  unfold hideCurve
  rw [if_neg hni]

/-- `setCurveColor` with an out-of-range index is a no-op. -/
theorem setCurveColor_invalid {cfg : Config} {s : CurvesState} {curveIndex : ℤ}
    {color : ColorArg} {meta : Option (Option Metadata)}
    (h : curveIndex < 0 ∨ (cfg.maxCurves : ℤ) ≤ curveIndex) :
    setCurveColor cfg s curveIndex color meta = s := by
  unfold setCurveColor; rw [if_pos h]

/-- `setCurveColor` on an invisible slot is a no-op. -/
theorem setCurveColor_invisible {cfg : Config} {s : CurvesState}
    {curveIndex : ℤ} {color : ColorArg} {meta : Option (Option Metadata)}
    (h1 : 0 ≤ curveIndex) (h2 : curveIndex < (cfg.maxCurves : ℤ))
    (hv : (s.curveData curveIndex.toNat).visible = false) :
    setCurveColor cfg s curveIndex color meta = s := by
  have hni : ¬(curveIndex < 0 ∨ (cfg.maxCurves : ℤ) ≤ curveIndex) := by omega
  unfold setCurveColor
  rw [if_neg hni]
  simp [hv]

/-- A `setCurveColor` call on a visible slot, written out as a record update. -/
theorem setCurveColor_visible {cfg : Config} {s : CurvesState}
    {curveIndex : ℤ} {color : ColorArg} {meta : Option (Option Metadata)}
    (h1 : 0 ≤ curveIndex) (h2 : curveIndex < (cfg.maxCurves : ℤ))
    (hv : (s.curveData curveIndex.toNat).visible = true) :
    setCurveColor cfg s curveIndex color meta =
      { s with
        curveData :=
          Function.update s.curveData curveIndex.toNat
            { s.curveData curveIndex.toNat with
              color := color
              metadata := meta.getD (s.curveData curveIndex.toNat).metadata }
        colors :=
          writeColors cfg s.colors curveIndex.toNat
            { s.curveData curveIndex.toNat with
              color := color
              metadata := meta.getD (s.curveData curveIndex.toNat).metadata }
        needsColorUpdate := true } := by
  have hni : ¬(curveIndex < 0 ∨ (cfg.maxCurves : ℤ) ≤ curveIndex) := by omega
  have hi : curveIndex.toNat < cfg.maxCurves := by omega
  unfold setCurveColor
  rw [if_neg hni]
  simp only [hv, if_true, applyColorToCurve, Function.update_same, hi]

/-! ### Claim C1: setCurve followed by getPointAt hits the endpoints -/

/-- After a valid `setCurve`, `getCurve` returns the stored control points. -/
theorem getCurve_after_setCurve {cfg : Config} {s : CurvesState}
    {curveIndex : ℤ} {pts : List Vec3} {color : ColorArg} {meta : Option Metadata}
    (h1 : 0 ≤ curveIndex) (h2 : curveIndex < (cfg.maxCurves : ℤ))
    (h3 : 2 ≤ pts.length) :
    getCurve cfg (setCurve cfg s curveIndex pts color meta) curveIndex = some pts := by
  rw [setCurve_valid h1 h2 h3]
  unfold getCurve
  rw [if_neg (by omega)]
  simp only [Function.update_same]
  rw [if_neg (by simp; omega)]

/-- C1: for every slot in `[0, maxCurves)` and every control-point list with
at least two points, `setCurve` followed by `getPointAt` at parameter 0
returns the first control point, and at parameter 1 the last control point
(exactly, in the rational model). -/
theorem C1_setCurve_getPointAt_endpoints (cfg : Config) (s : CurvesState)
    (slot : ℤ) (pts : List Vec3) (color : ColorArg) (meta : Option Metadata)
    (h1 : 0 ≤ slot) (h2 : slot < (cfg.maxCurves : ℤ)) (h3 : 2 ≤ pts.length) :
    getPointAt cfg (setCurve cfg s slot pts color meta) slot 0 =
        pts.getD 0 ⟨0, 0, 0⟩ ∧
      getPointAt cfg (setCurve cfg s slot pts color meta) slot 1 =
        pts.getD (pts.length - 1) ⟨0, 0, 0⟩ := by
  unfold getPointAt
  rw [getCurve_after_setCurve h1 h2 h3]
  exact ⟨catmullGetPoint_zero pts h3, catmullGetPoint_one pts h3⟩

/-- Concrete instance of C1: two control points in a one-slot renderer. -/
theorem C1_setCurve_getPointAt_endpoints_witness :
    ((0 : ℤ) ≤ 0 ∧ (0 : ℤ) < ((Config.mk 1 1).maxCurves : ℤ) ∧
        2 ≤ ([⟨1, 2, 3⟩, ⟨4, 5, 6⟩] : List Vec3).length) ∧
      (getPointAt ⟨1, 1⟩
            (setCurve ⟨1, 1⟩ (initState 0 0) 0 [⟨1, 2, 3⟩, ⟨4, 5, 6⟩] (.num 255) none)
            0 0 =
          ([⟨1, 2, 3⟩, ⟨4, 5, 6⟩] : List Vec3).getD 0 ⟨0, 0, 0⟩ ∧
        getPointAt ⟨1, 1⟩
            (setCurve ⟨1, 1⟩ (initState 0 0) 0 [⟨1, 2, 3⟩, ⟨4, 5, 6⟩] (.num 255) none)
            0 1 =
          ([⟨1, 2, 3⟩, ⟨4, 5, 6⟩] : List Vec3).getD
            (([⟨1, 2, 3⟩, ⟨4, 5, 6⟩] : List Vec3).length - 1) ⟨0, 0, 0⟩) :=
  ⟨⟨by decide, by decide, by decide⟩,
    C1_setCurve_getPointAt_endpoints ⟨1, 1⟩ (initState 0 0) 0
      [⟨1, 2, 3⟩, ⟨4, 5, 6⟩] (.num 255) none (by decide) (by decide) (by decide)⟩

/-! ### Claim C5: invalid setCurve arguments are a silent no-op -/

/-- C5: a `setCurve` call with a slot index outside `[0, maxCurves)` or with
fewer than two control points leaves the whole state unchanged (buffers,
per-slot data, curve count, dirty flags). -/
theorem C5_setCurve_invalid_noop (cfg : Config) (s : CurvesState)
    (curveIndex : ℤ) (pts : List Vec3) (color : ColorArg) (meta : Option Metadata)
    (h : curveIndex < 0 ∨ (cfg.maxCurves : ℤ) ≤ curveIndex ∨ pts.length < 2) :
    setCurve cfg s curveIndex pts color meta = s :=
  setCurve_invalid h

/-- Concrete instance of C5: an out-of-range slot in a two-slot renderer. -/
theorem C5_setCurve_invalid_noop_witness :
    ((5 : ℤ) < 0 ∨ ((Config.mk 2 1).maxCurves : ℤ) ≤ 5 ∨
        ([⟨1, 2, 3⟩, ⟨4, 5, 6⟩] : List Vec3).length < 2) ∧
      setCurve ⟨2, 1⟩ (initState 0 0) 5 [⟨1, 2, 3⟩, ⟨4, 5, 6⟩] (.num 255) none =
        initState 0 0 :=
  ⟨by decide,
    C5_setCurve_invalid_noop ⟨2, 1⟩ (initState 0 0) 5 [⟨1, 2, 3⟩, ⟨4, 5, 6⟩]
      (.num 255) none (by decide)⟩

/-! ### Claim C6: setVisibleCurveCount clamping (corrected) -/

/-- Counterexample to C6: `setVisibleCurveCount (-1)` stores `-1`, not the
spec's lower-clamped value `0`. -/
theorem C6_counterexample :
    (setVisibleCurveCount ⟨2, 1⟩ (initState 0 0) (-1)).currentCurveCount = -1 ∧
      specClampedCount (-1) (((Config.mk 2 1).maxCurves : ℤ)) = 0 := by
  constructor
  · rfl
  · decide

/-- C6 (amended): `setVisibleCurveCount n` stores `min n maxCurves` — the
count is clamped from above only, a negative `n` is stored as-is — and sets
the draw range to that stored count times `verticesPerCurve`. -/
theorem C6_setVisibleCurveCount_amended (cfg : Config) (s : CurvesState)
    (count : ℤ) :
    (setVisibleCurveCount cfg s count).currentCurveCount =
        min count (cfg.maxCurves : ℤ) ∧
      (setVisibleCurveCount cfg s count).drawRange =
        min count (cfg.maxCurves : ℤ) * (cfg.verticesPerCurve : ℤ) :=
  ⟨rfl, rfl⟩

/-! ### Claim C8: setCurveColor on an invisible slot is a no-op -/

/-- C8: `setCurveColor` on a slot whose visibility flag is false leaves the
entire state unchanged — in particular the colors buffer, the stored per-slot
color and metadata, the visibility flag, and the dirty flags. -/
theorem C8_setCurveColor_invisible_noop (cfg : Config) (s : CurvesState)
    (slot : ℤ) (color : ColorArg) (meta : Option (Option Metadata))
    (h1 : 0 ≤ slot) (h2 : slot < (cfg.maxCurves : ℤ))
    (hv : (s.curveData slot.toNat).visible = false) :
    setCurveColor cfg s slot color meta = s :=
  setCurveColor_invisible h1 h2 hv

/-- Concrete instance of C8: slot 0 of a fresh renderer is invisible. -/
theorem C8_setCurveColor_invisible_noop_witness :
    ((0 : ℤ) ≤ 0 ∧ (0 : ℤ) < ((Config.mk 2 1).maxCurves : ℤ) ∧
        ((initState 0 0).curveData (0 : ℤ).toNat).visible = false) ∧
      setCurveColor ⟨2, 1⟩ (initState 0 0) 0 (.num 255) none = initState 0 0 :=
  ⟨⟨by decide, by decide, by decide⟩,
    C8_setCurveColor_invisible_noop ⟨2, 1⟩ (initState 0 0) 0 (.num 255) none
      (by decide) (by decide) (by decide)⟩

/-! ### Claim C10: gradient parameters at longitude 0, latitude 0 -/

/-- C10: a gradient color keyed at longitude 0 and latitude 0 yields hue
`((0 + 180) % 360) / 360 = 0.5` (with saturation `0.9`), and the per-vertex
lightness ramp evaluates to `0.35` at curve progress 0 and `0.75` at curve
progress 1. -/
theorem C10_gradient_endpoints :
    computeGradientParams (.gradient (some 0) (some 0)) none =
        some ⟨1 / 2, 9 / 10, 35 / 100, 75 / 100⟩ ∧
      gradientLightness ⟨1 / 2, 9 / 10, 35 / 100, 75 / 100⟩ 0 = 35 / 100 ∧
      gradientLightness ⟨1 / 2, 9 / 10, 35 / 100, 75 / 100⟩ 1 = 75 / 100 := by
  refine ⟨?_, ?_, ?_⟩
  · norm_num [computeGradientParams, jsRem, jsTrunc, qclamp]
  · norm_num [gradientLightness, qclamp]
  · norm_num [gradientLightness, qclamp]

/-! ### Claim C4: currentCurveCount dynamics -/

theorem applyUpdates_currentCurveCount (s : CurvesState) :
    (applyUpdates s).currentCurveCount = s.currentCurveCount := by
  unfold applyUpdates
  dsimp only
  split_ifs <;> rfl

theorem applyUpdates_dashSize (s : CurvesState) :
    (applyUpdates s).dashSize = s.dashSize := by
  unfold applyUpdates
  dsimp only
  split_ifs <;> rfl

theorem applyUpdates_needsPositionUpdate (s : CurvesState) :
    (applyUpdates s).needsPositionUpdate = false := by
  unfold applyUpdates
  dsimp only
  split_ifs <;> simp_all

theorem applyUpdates_needsColorUpdate (s : CurvesState) :
    (applyUpdates s).needsColorUpdate = false := by
  unfold applyUpdates
  dsimp only
  split_ifs <;> simp_all

theorem applyUpdates_needsLineDistanceUpdate (s : CurvesState)
    (h : 0 ≤ s.dashSize) : (applyUpdates s).needsLineDistanceUpdate = false := by
  rcases lt_or_eq_of_le h with hlt | heq
  · unfold applyUpdates
    dsimp only
    split_ifs <;> simp_all
  · replace heq := heq.symm
    unfold applyUpdates
    dsimp only
    split_ifs <;> simp_all

theorem applyUpdates_uploadDistanceCount_of_dash_zero (s : CurvesState)
    (hz : s.dashSize = 0) :
    (applyUpdates s).uploadDistanceCount = s.uploadDistanceCount := by
  unfold applyUpdates
  dsimp only
  split_ifs <;> simp_all

theorem setDashPattern_currentCurveCount (s : CurvesState) (d g : ℚ) :
    (setDashPattern s d g).currentCurveCount = s.currentCurveCount := by
  unfold setDashPattern
  dsimp only
  split_ifs <;> rfl

theorem setCurveColor_currentCurveCount (cfg : Config) (s : CurvesState)
    (curveIndex : ℤ) (color : ColorArg) (meta : Option (Option Metadata)) :
    (setCurveColor cfg s curveIndex color meta).currentCurveCount =
      s.currentCurveCount := by
  unfold setCurveColor applyColorToCurve
  dsimp only
  split_ifs <;> rfl

theorem hideCurve_currentCurveCount (cfg : Config) (s : CurvesState)
    (curveIndex : ℤ) :
    (hideCurve cfg s curveIndex).currentCurveCount = s.currentCurveCount := by
  unfold hideCurve
  dsimp only
  split_ifs <;> rfl

theorem setCurve_currentCurveCount_mono (cfg : Config) (s : CurvesState)
    (curveIndex : ℤ) (pts : List Vec3) (color : ColorArg) (meta : Option Metadata) :
    s.currentCurveCount ≤
      (setCurve cfg s curveIndex pts color meta).currentCurveCount := by
  rcases le_or_lt 2 pts.length with h3 | h3
  · by_cases hb : curveIndex < 0 ∨ (cfg.maxCurves : ℤ) ≤ curveIndex
    · rw [setCurve_invalid (by tauto)]
    · push_neg at hb
      rw [setCurve_valid (by omega) (by omega) h3]
      dsimp only
      split_ifs with hc <;> omega
  · rw [setCurve_invalid (Or.inr (Or.inr h3))]

/-- C4: a valid `setCurve` on slot `k` raises `currentCurveCount` to `k + 1`
when `k ≥ currentCurveCount` and leaves it unchanged otherwise; `hideCurve`
never changes `currentCurveCount`; and no operation other than
`setVisibleCurveCount` can decrease it. -/
theorem C4_currentCurveCount_dynamics (cfg : Config) (s : CurvesState)
    (k : ℤ) (pts : List Vec3) (color : ColorArg) (meta : Option Metadata)
    (idx : ℤ) (op : Op)
    (h1 : 0 ≤ k) (h2 : k < (cfg.maxCurves : ℤ)) (h3 : 2 ≤ pts.length)
    (hop : op.isSetVisibleCount = false) :
    ((s.currentCurveCount ≤ k →
        (setCurve cfg s k pts color meta).currentCurveCount = k + 1) ∧
      (k < s.currentCurveCount →
        (setCurve cfg s k pts color meta).currentCurveCount =
          s.currentCurveCount)) ∧
    (hideCurve cfg s idx).currentCurveCount = s.currentCurveCount ∧
    s.currentCurveCount ≤ (step cfg s op).currentCurveCount := by
  refine ⟨⟨?_, ?_⟩, hideCurve_currentCurveCount cfg s idx, ?_⟩
  · intro hc
    rw [setCurve_valid h1 h2 h3]
    dsimp only
    rw [if_pos hc]
  · intro hc
    rw [setCurve_valid h1 h2 h3]
    dsimp only
    rw [if_neg (by omega)]
  · cases op with
    | set i p c m => exact setCurve_currentCurveCount_mono cfg s i p c m
    | setColor i c m => exact (setCurveColor_currentCurveCount cfg s i c m).ge
    | hide i => exact (hideCurve_currentCurveCount cfg s i).ge
    | setVisibleCount n => simp [Op.isSetVisibleCount] at hop
    | applyAll => exact (applyUpdates_currentCurveCount s).ge
    | setDash d g => exact (setDashPattern_currentCurveCount s d g).ge

/-- Concrete instance of C4 in a two-slot renderer. -/
theorem C4_currentCurveCount_dynamics_witness :
    ((0 : ℤ) ≤ 0 ∧ (0 : ℤ) < ((Config.mk 2 1).maxCurves : ℤ) ∧
        2 ≤ ([⟨1, 2, 3⟩, ⟨4, 5, 6⟩] : List Vec3).length ∧
        (Op.hide 0).isSetVisibleCount = false) ∧
      (((initState 0 0).currentCurveCount ≤ 0 →
          (setCurve ⟨2, 1⟩ (initState 0 0) 0 [⟨1, 2, 3⟩, ⟨4, 5, 6⟩] (.num 255)
              none).currentCurveCount = 0 + 1) ∧
        ((0 : ℤ) < (initState 0 0).currentCurveCount →
          (setCurve ⟨2, 1⟩ (initState 0 0) 0 [⟨1, 2, 3⟩, ⟨4, 5, 6⟩] (.num 255)
              none).currentCurveCount = (initState 0 0).currentCurveCount)) ∧
      (hideCurve ⟨2, 1⟩ (initState 0 0) 1).currentCurveCount =
        (initState 0 0).currentCurveCount ∧
      (initState 0 0).currentCurveCount ≤
        (step ⟨2, 1⟩ (initState 0 0) (.hide 0)).currentCurveCount :=
  ⟨⟨by decide, by decide, by decide, by decide⟩,
    C4_currentCurveCount_dynamics ⟨2, 1⟩ (initState 0 0) 0
      [⟨1, 2, 3⟩, ⟨4, 5, 6⟩] (.num 255) none 1 (.hide 0)
      (by decide) (by decide) (by decide) (by decide)⟩

/-! ### Claim C9: applyUpdates clears the flags and is idempotent -/

/-- With all three dirty flags already cleared, `applyUpdates` is the
identity. -/
theorem applyUpdates_noop {s : CurvesState}
    (hp : s.needsPositionUpdate = false) (hc : s.needsColorUpdate = false)
    (hl : s.needsLineDistanceUpdate = false) : applyUpdates s = s := by
  unfold applyUpdates
  dsimp only
  split_ifs <;> first
    | rfl
    | (apply CurvesState.ext' <;> simp_all)

/-- C9: one `applyUpdates` call on a state with a non-negative dash size (the
configuration contract) clears all three dirty flags; a second call with no
intervening mutation changes nothing — in particular it triggers no
attribute upload — and with dash size 0 the line-distance upload is never
triggered. -/
theorem C9_applyUpdates_idempotent (s : CurvesState) (h : 0 ≤ s.dashSize) :
    ((applyUpdates s).needsPositionUpdate = false ∧
      (applyUpdates s).needsColorUpdate = false ∧
      (applyUpdates s).needsLineDistanceUpdate = false) ∧
    applyUpdates (applyUpdates s) = applyUpdates s ∧
    (s.dashSize = 0 →
      (applyUpdates s).uploadDistanceCount = s.uploadDistanceCount) := by
  have hflags : (applyUpdates s).needsPositionUpdate = false ∧
      (applyUpdates s).needsColorUpdate = false ∧
      (applyUpdates s).needsLineDistanceUpdate = false :=
    ⟨applyUpdates_needsPositionUpdate s, applyUpdates_needsColorUpdate s,
      applyUpdates_needsLineDistanceUpdate s h⟩
  exact ⟨hflags, applyUpdates_noop hflags.1 hflags.2.1 hflags.2.2,
    fun hz => applyUpdates_uploadDistanceCount_of_dash_zero s hz⟩

/-- Concrete instance of C9: a fresh renderer with dash size 0. -/
theorem C9_applyUpdates_idempotent_witness :
    (0 : ℚ) ≤ (initState 0 0).dashSize ∧
      (((applyUpdates (initState 0 0)).needsPositionUpdate = false ∧
          (applyUpdates (initState 0 0)).needsColorUpdate = false ∧
          (applyUpdates (initState 0 0)).needsLineDistanceUpdate = false) ∧
        applyUpdates (applyUpdates (initState 0 0)) = applyUpdates (initState 0 0) ∧
        ((initState 0 0).dashSize = 0 →
          (applyUpdates (initState 0 0)).uploadDistanceCount =
            (initState 0 0).uploadDistanceCount)) :=
  ⟨by decide, C9_applyUpdates_idempotent (initState 0 0) (by decide)⟩

/-! ### Claim C7: line distances start at 0 and are non-decreasing -/

/-- C7: after any valid `setCurve`, the per-vertex line-distance sequence of
that slot starts at 0 at the slot's first vertex and is non-decreasing along
the vertex order. -/
theorem C7_lineDistances_monotone (cfg : Config) (s : CurvesState)
    (slot : ℤ) (pts : List Vec3) (color : ColorArg) (meta : Option Metadata)
    (hseg : 0 < cfg.segmentsPerCurve)
    (h1 : 0 ≤ slot) (h2 : slot < (cfg.maxCurves : ℤ)) (h3 : 2 ≤ pts.length) :
    (setCurve cfg s slot pts color meta).lineDistances
        (slot.toNat * cfg.verticesPerCurve) = 0 ∧
      ∀ m, m + 1 < cfg.verticesPerCurve →
        (setCurve cfg s slot pts color meta).lineDistances
            (slot.toNat * cfg.verticesPerCurve + m) ≤
          (setCurve cfg s slot pts color meta).lineDistances
            (slot.toNat * cfg.verticesPerCurve + m + 1) := by
  have hV : 0 < cfg.verticesPerCurve := by
    unfold Config.verticesPerCurve; omega
  rw [setCurve_valid h1 h2 h3]
  dsimp only
  constructor
  · rw [writeDistances_inside ⟨le_refl _, by omega⟩]
    norm_num [cumulativeLength]
  · intro m hm
    rw [writeDistances_inside ⟨by omega, by omega⟩,
      writeDistances_inside ⟨by omega, by omega⟩]
    have e1 : slot.toNat * cfg.verticesPerCurve + m -
        slot.toNat * cfg.verticesPerCurve = m := by omega
    have e2 : slot.toNat * cfg.verticesPerCurve + m + 1 -
        slot.toNat * cfg.verticesPerCurve = m + 1 := by omega
    rw [e1, e2]
    exact cumulativeLength_mono _ (by omega)

/-- Concrete instance of C7 in a one-slot, one-segment renderer. -/
theorem C7_lineDistances_monotone_witness :
    (0 < (Config.mk 1 1).segmentsPerCurve ∧ (0 : ℤ) ≤ 0 ∧
        (0 : ℤ) < ((Config.mk 1 1).maxCurves : ℤ) ∧
        2 ≤ ([⟨1, 2, 3⟩, ⟨4, 5, 6⟩] : List Vec3).length) ∧
      (setCurve ⟨1, 1⟩ (initState 0 0) 0 [⟨1, 2, 3⟩, ⟨4, 5, 6⟩] (.num 255)
            none).lineDistances ((0 : ℤ).toNat * (Config.mk 1 1).verticesPerCurve) =
          0 ∧
        ∀ m, m + 1 < (Config.mk 1 1).verticesPerCurve →
          (setCurve ⟨1, 1⟩ (initState 0 0) 0 [⟨1, 2, 3⟩, ⟨4, 5, 6⟩] (.num 255)
              none).lineDistances
              ((0 : ℤ).toNat * (Config.mk 1 1).verticesPerCurve + m) ≤
            (setCurve ⟨1, 1⟩ (initState 0 0) 0 [⟨1, 2, 3⟩, ⟨4, 5, 6⟩] (.num 255)
                none).lineDistances
              ((0 : ℤ).toNat * (Config.mk 1 1).verticesPerCurve + m + 1) :=
  ⟨⟨by decide, by decide, by decide, by decide⟩,
    C7_lineDistances_monotone ⟨1, 1⟩ (initState 0 0) 0 [⟨1, 2, 3⟩, ⟨4, 5, 6⟩]
      (.num 255) none (by decide) (by decide) (by decide) (by decide)⟩

/-! ### Claim C2: mutating one slot leaves the other slots' buffers alone -/

/-- One mutating call targeting slot `i` only writes inside slot `i`'s buffer
regions. -/
theorem step_targets_buffers (cfg : Config) (s : CurvesState) (op : Op)
    {i : ℕ} (hop : TargetsSlot op i) (hi : i < cfg.maxCurves) :
    (∀ n, ¬ vecRegion cfg i n →
        (step cfg s op).positions n = s.positions n ∧
          (step cfg s op).colors n = s.colors n) ∧
      ∀ n, ¬ distRegion cfg i n →
        (step cfg s op).lineDistances n = s.lineDistances n := by
  cases op with
  | set idx pts color meta =>
    have hidx : idx = (i : ℤ) := hop
    subst hidx
    simp only [step]
    rcases le_or_lt 2 pts.length with hp | hp
    · rw [setCurve_valid (by omega) (by omega) hp]
      dsimp only
      rw [Int.toNat_natCast]
      refine ⟨fun n hn => ⟨writePositions_outside hn, writeColors_outside hn⟩,
        fun n hn => writeDistances_outside hn⟩
    · rw [setCurve_invalid (Or.inr (Or.inr hp))]
      exact ⟨fun n _ => ⟨rfl, rfl⟩, fun n _ => rfl⟩
  | setColor idx color meta =>
    have hidx : idx = (i : ℤ) := hop
    subst hidx
    simp only [step]
    rcases Bool.eq_false_or_eq_true ((s.curveData ((i : ℤ)).toNat).visible) with hv | hv
    · rw [setCurveColor_visible (by omega) (by omega) hv]
      dsimp only
      rw [Int.toNat_natCast]
      exact ⟨fun n hn => ⟨rfl, writeColors_outside hn⟩, fun n _ => rfl⟩
    · rw [setCurveColor_invisible (by omega) (by omega) hv]
      exact ⟨fun n _ => ⟨rfl, rfl⟩, fun n _ => rfl⟩
  | hide idx =>
    have hidx : idx = (i : ℤ) := hop
    subst hidx
    simp only [step]
    rw [hideCurve_valid (by omega) (by omega)]
    dsimp only
    rw [Int.toNat_natCast]
    exact ⟨fun n hn => ⟨zeroVecRegion_outside hn, rfl⟩,
      fun n hn => zeroDistRegion_outside hn⟩
  | setVisibleCount n => exact hop.elim
  | applyAll => exact hop.elim
  | setDash d g => exact hop.elim

/-- C2: for distinct slots `i ≠ j` in range, any sequence of mutating calls
(`setCurve`, `setCurveColor`, `hideCurve`) targeting slot `i` leaves every
entry of slot `j`'s regions of the positions, colors, and line-distance
buffers unchanged. -/
theorem C2_slot_isolation (cfg : Config) (s : CurvesState) (ops : List Op)
    (i j : ℕ) (hi : i < cfg.maxCurves) (_hj : j < cfg.maxCurves) (hij : j ≠ i)
    (hops : ∀ op ∈ ops, TargetsSlot op i) :
    (∀ n, vecRegion cfg j n →
        (runOps cfg s ops).positions n = s.positions n ∧
          (runOps cfg s ops).colors n = s.colors n) ∧
      ∀ n, distRegion cfg j n →
        (runOps cfg s ops).lineDistances n = s.lineDistances n := by
  induction ops generalizing s with
  | nil => exact ⟨fun n _ => ⟨rfl, rfl⟩, fun n _ => rfl⟩
  | cons op ops ih =>
    have hstep := step_targets_buffers cfg s op (hops op (List.mem_cons_self op ops)) hi
    have hrest := ih (step cfg s op) fun op' h => hops op' (List.mem_cons_of_mem _ h)
    constructor
    · intro n hn
      have hnv : ¬ vecRegion cfg i n := fun hv =>
        vecRegion_disjoint (Ne.symm hij) hv hn
      have e1 := (hrest.1 n hn).1
      have e2 := (hrest.1 n hn).2
      have f1 := (hstep.1 n hnv).1
      have f2 := (hstep.1 n hnv).2
      exact ⟨e1.trans f1, e2.trans f2⟩
    · intro n hn
      have hnd : ¬ distRegion cfg i n := fun hv =>
        distRegion_disjoint (Ne.symm hij) hv hn
      exact (hrest.2 n hn).trans (hstep.2 n hnd)

/-- Concrete instance of C2: two operations on slot 0 of a two-slot renderer
leave slot 1's regions alone. -/
theorem C2_slot_isolation_witness :
    (0 < (Config.mk 2 1).maxCurves ∧ 1 < (Config.mk 2 1).maxCurves ∧ (1 : ℕ) ≠ 0 ∧
        ∀ op ∈ ([.set 0 [⟨1, 2, 3⟩, ⟨4, 5, 6⟩] (.num 255) none, .hide 0] : List Op),
          TargetsSlot op 0) ∧
      ((∀ n, vecRegion ⟨2, 1⟩ 1 n →
          (runOps ⟨2, 1⟩ (initState 0 0)
                [.set 0 [⟨1, 2, 3⟩, ⟨4, 5, 6⟩] (.num 255) none, .hide 0]).positions n =
              (initState 0 0).positions n ∧
            (runOps ⟨2, 1⟩ (initState 0 0)
                [.set 0 [⟨1, 2, 3⟩, ⟨4, 5, 6⟩] (.num 255) none, .hide 0]).colors n =
              (initState 0 0).colors n) ∧
        ∀ n, distRegion ⟨2, 1⟩ 1 n →
          (runOps ⟨2, 1⟩ (initState 0 0)
              [.set 0 [⟨1, 2, 3⟩, ⟨4, 5, 6⟩] (.num 255) none, .hide 0]).lineDistances n =
            (initState 0 0).lineDistances n) :=
  ⟨⟨by decide, by decide, by decide,
      by
        intro op h
        simp only [List.mem_cons, List.not_mem_nil, or_false] at h
        rcases h with rfl | rfl <;> rfl⟩,
    C2_slot_isolation ⟨2, 1⟩ (initState 0 0)
      [.set 0 [⟨1, 2, 3⟩, ⟨4, 5, 6⟩] (.num 255) none, .hide 0] 0 1
      (by decide) (by decide) (by decide)
      (by
        intro op h
        simp only [List.mem_cons, List.not_mem_nil, or_false] at h
        rcases h with rfl | rfl <;> rfl)⟩

/-! ### Claim C3: buffer regions of unoccupied and hidden slots -/

theorem applyUpdates_positions (s : CurvesState) :
    (applyUpdates s).positions = s.positions := by
  unfold applyUpdates
  dsimp only
  split_ifs <;> rfl

theorem applyUpdates_colors (s : CurvesState) :
    (applyUpdates s).colors = s.colors := by
  unfold applyUpdates
  dsimp only
  split_ifs <;> rfl

theorem applyUpdates_lineDistances (s : CurvesState) :
    (applyUpdates s).lineDistances = s.lineDistances := by
  unfold applyUpdates
  dsimp only
  split_ifs <;> rfl

theorem applyUpdates_curveData (s : CurvesState) :
    (applyUpdates s).curveData = s.curveData := by
  unfold applyUpdates
  dsimp only
  split_ifs <;> rfl

theorem setDashPattern_positions (s : CurvesState) (d g : ℚ) :
    (setDashPattern s d g).positions = s.positions := by
  unfold setDashPattern
  dsimp only
  split_ifs <;> rfl

theorem setDashPattern_colors (s : CurvesState) (d g : ℚ) :
    (setDashPattern s d g).colors = s.colors := by
  unfold setDashPattern
  dsimp only
  split_ifs <;> rfl

theorem setDashPattern_lineDistances (s : CurvesState) (d g : ℚ) :
    (setDashPattern s d g).lineDistances = s.lineDistances := by
  unfold setDashPattern
  dsimp only
  split_ifs <;> rfl

theorem setDashPattern_curveData (s : CurvesState) (d g : ℚ) :
    (setDashPattern s d g).curveData = s.curveData := by
  unfold setDashPattern
  dsimp only
  split_ifs <;> rfl

/-- The slot invariant only depends on the buffers and the per-slot records. -/
theorem slotsInv_congr {cfg : Config} {s t : CurvesState} (h : SlotsInv cfg s)
    (hcd : t.curveData = s.curveData) (hp : t.positions = s.positions)
    (hc : t.colors = s.colors) (hl : t.lineDistances = s.lineDistances) :
    SlotsInv cfg t := by
  intro j hj
  have hs := h j hj
  unfold SlotGeometryZero at *
  rw [hcd, hp, hc, hl]
  exact hs

theorem slotsInv_init (cfg : Config) (d g : ℚ) :
    SlotsInv cfg (initState d g) := by
  intro j hj
  exact ⟨fun _ => ⟨fun n _ => rfl, fun n _ => rfl⟩,
    fun _ => ⟨rfl, fun n _ => rfl⟩⟩

/-- Every operation preserves the slot invariant. -/
theorem slotsInv_step (cfg : Config) {s : CurvesState} (h : SlotsInv cfg s)
    (op : Op) : SlotsInv cfg (step cfg s op) := by
  cases op with
  | set idx pts color meta =>
    simp only [step]
    by_cases hb : idx < 0 ∨ (cfg.maxCurves : ℤ) ≤ idx
    · rw [setCurve_invalid (by tauto)]; exact h
    · rcases le_or_lt 2 pts.length with hp | hp
      · push_neg at hb
        rw [setCurve_valid (by omega) (by omega) hp]
        intro j hj
        dsimp only [SlotGeometryZero]
        by_cases hji : j = idx.toNat
        · subst hji
          constructor
          · intro hvis
            rw [Function.update_same] at hvis
            simp at hvis
          · intro hpts
            rw [Function.update_same] at hpts
            dsimp only at hpts
            subst hpts
            simp at hp
        · rw [Function.update_noteq hji]
          constructor
          · intro hvis
            refine ⟨fun n hn => ?_, fun n hn => ?_⟩
            · have hnv : ¬ vecRegion cfg idx.toNat n := fun hv =>
                vecRegion_disjoint (Ne.symm hji) hv hn
              rw [writePositions_outside hnv]
              exact ((h j hj).1 hvis).1 n hn
            · have hnd : ¬ distRegion cfg idx.toNat n := fun hv =>
                distRegion_disjoint (Ne.symm hji) hv hn
              rw [writeDistances_outside hnd]
              exact ((h j hj).1 hvis).2 n hn
          · intro hpts
            refine ⟨((h j hj).2 hpts).1, fun n hn => ?_⟩
            have hnv : ¬ vecRegion cfg idx.toNat n := fun hv =>
              vecRegion_disjoint (Ne.symm hji) hv hn
            rw [writeColors_outside hnv]
            exact ((h j hj).2 hpts).2 n hn
      · rw [setCurve_invalid (Or.inr (Or.inr hp))]; exact h
  | setColor idx color meta =>
    simp only [step]
    by_cases hb : idx < 0 ∨ (cfg.maxCurves : ℤ) ≤ idx
    · rw [setCurveColor_invalid hb]; exact h
    · push_neg at hb
      rcases Bool.eq_false_or_eq_true ((s.curveData idx.toNat).visible) with hv | hv
      · rw [setCurveColor_visible (by omega) (by omega) hv]
        intro j hj
        dsimp only [SlotGeometryZero]
        by_cases hji : j = idx.toNat
        · subst hji
          constructor
          · intro hvis
            rw [Function.update_same] at hvis
            dsimp only at hvis
            rw [hv] at hvis
            simp at hvis
          · intro hpts
            rw [Function.update_same] at hpts
            dsimp only at hpts
            have hfalse := ((h idx.toNat hj).2 hpts).1
            rw [hfalse] at hv
            exact absurd hv (by simp)
        · rw [Function.update_noteq hji]
          constructor
          · intro hvis
            exact (h j hj).1 hvis
          · intro hpts
            refine ⟨((h j hj).2 hpts).1, fun n hn => ?_⟩
            have hnv : ¬ vecRegion cfg idx.toNat n := fun hvv =>
              vecRegion_disjoint (Ne.symm hji) hvv hn
            rw [writeColors_outside hnv]
            exact ((h j hj).2 hpts).2 n hn
      · rw [setCurveColor_invisible (by omega) (by omega) hv]; exact h
  | hide idx =>
    simp only [step]
    by_cases hb : idx < 0 ∨ (cfg.maxCurves : ℤ) ≤ idx
    · rw [hideCurve_invalid hb]; exact h
    · push_neg at hb
      rw [hideCurve_valid (by omega) (by omega)]
      intro j hj
      dsimp only [SlotGeometryZero]
      by_cases hji : j = idx.toNat
      · subst hji
        constructor
        · intro _
          exact ⟨fun n hn => zeroVecRegion_inside hn,
            fun n hn => zeroDistRegion_inside hn⟩
        · intro hpts
          rw [Function.update_same] at hpts
          dsimp only at hpts
          refine ⟨by rw [Function.update_same], fun n hn => ?_⟩
          exact ((h idx.toNat hj).2 hpts).2 n hn
      · rw [Function.update_noteq hji]
        constructor
        · intro hvis
          refine ⟨fun n hn => ?_, fun n hn => ?_⟩
          · have hnv : ¬ vecRegion cfg idx.toNat n := fun hvv =>
              vecRegion_disjoint (Ne.symm hji) hvv hn
            rw [zeroVecRegion_outside hnv]
            exact ((h j hj).1 hvis).1 n hn
          · have hnd : ¬ distRegion cfg idx.toNat n := fun hvv =>
              distRegion_disjoint (Ne.symm hji) hvv hn
            rw [zeroDistRegion_outside hnd]
            exact ((h j hj).1 hvis).2 n hn
        · intro hpts
          refine ⟨((h j hj).2 hpts).1, ((h j hj).2 hpts).2⟩
  | setVisibleCount n =>
    exact slotsInv_congr h rfl rfl rfl rfl
  | applyAll =>
    exact slotsInv_congr h (applyUpdates_curveData s) (applyUpdates_positions s)
      (applyUpdates_colors s) (applyUpdates_lineDistances s)
  | setDash d g =>
    exact slotsInv_congr h (setDashPattern_curveData s d g)
      (setDashPattern_positions s d g) (setDashPattern_colors s d g)
      (setDashPattern_lineDistances s d g)

/-- Every reachable state satisfies the slot invariant. -/
theorem reachable_slotsInv {cfg : Config} {s : CurvesState}
    (h : Reachable cfg s) : SlotsInv cfg s := by
  induction h with
  | init d g => exact slotsInv_init cfg d g
  | next op _ ih => exact slotsInv_step cfg ih op

/-- Counterexample to C3 as stated: after `setCurve` then `hideCurve` on slot
0, the slot is hidden but its colors region still holds the written color
(red, so the first entry is 1, not 0) — `hideCurve` zeroes only the position
and line-distance regions. -/
theorem C3_counterexample :
    ((runOps ⟨1, 1⟩ (initState 0 0)
          [.set 0 [⟨1, 2, 3⟩, ⟨4, 5, 6⟩] (.num 0xFF0000) none,
            .hide 0]).curveData 0).visible = false ∧
      (runOps ⟨1, 1⟩ (initState 0 0)
          [.set 0 [⟨1, 2, 3⟩, ⟨4, 5, 6⟩] (.num 0xFF0000) none,
            .hide 0]).colors 0 = 1 := by
  constructor
  · decide
  · have hrun : runOps ⟨1, 1⟩ (initState 0 0)
        [.set 0 [⟨1, 2, 3⟩, ⟨4, 5, 6⟩] (.num 0xFF0000) none, .hide 0] =
        hideCurve ⟨1, 1⟩
          (setCurve ⟨1, 1⟩ (initState 0 0) 0 [⟨1, 2, 3⟩, ⟨4, 5, 6⟩]
            (.num 0xFF0000) none) 0 := rfl
    rw [hrun, hideCurve_valid (by decide) (by decide),
      setCurve_valid (by decide) (by decide) (by decide)]
    dsimp only
    unfold writeColors
    rw [if_pos (by decide)]
    norm_num [vertexColor, computeGradientParams, resolveSolidColor, hexToColor,
      Color.coord]

/-- C3 (amended): in every reachable state, a hidden slot's position and
line-distance regions are all zero, and a never-set slot (no stored control
points) additionally has an all-zero colors region.  The colors region of a
previously set, now hidden slot is not zeroed. -/
theorem C3_hidden_slot_buffers_amended (cfg : Config) (s : CurvesState)
    (h : Reachable cfg s) (j : ℕ) (hj : j < cfg.maxCurves) :
    ((s.curveData j).visible = false →
        (∀ n, vecRegion cfg j n → s.positions n = 0) ∧
          ∀ n, distRegion cfg j n → s.lineDistances n = 0) ∧
      ((s.curveData j).controlPoints = [] →
        (∀ n, vecRegion cfg j n → s.positions n = 0) ∧
          (∀ n, vecRegion cfg j n → s.colors n = 0) ∧
          ∀ n, distRegion cfg j n → s.lineDistances n = 0) := by
  have hinv := reachable_slotsInv h j hj
  refine ⟨fun hv => ⟨(hinv.1 hv).1, (hinv.1 hv).2⟩, fun hp => ?_⟩
  have h2 := hinv.2 hp
  have h1 := hinv.1 h2.1
  exact ⟨h1.1, h2.2, h1.2⟩

/-- Concrete instance of the amended C3 at the freshly initialized state. -/
theorem C3_hidden_slot_buffers_amended_witness :
    (Reachable ⟨1, 1⟩ (initState 0 0) ∧ 0 < (Config.mk 1 1).maxCurves) ∧
      ((((initState 0 0 : CurvesState).curveData 0).visible = false →
          (∀ n, vecRegion ⟨1, 1⟩ 0 n → (initState 0 0 : CurvesState).positions n = 0) ∧
            ∀ n, distRegion ⟨1, 1⟩ 0 n →
              (initState 0 0 : CurvesState).lineDistances n = 0) ∧
        (((initState 0 0 : CurvesState).curveData 0).controlPoints = [] →
          (∀ n, vecRegion ⟨1, 1⟩ 0 n → (initState 0 0 : CurvesState).positions n = 0) ∧
            (∀ n, vecRegion ⟨1, 1⟩ 0 n → (initState 0 0 : CurvesState).colors n = 0) ∧
            ∀ n, distRegion ⟨1, 1⟩ 0 n →
              (initState 0 0 : CurvesState).lineDistances n = 0)) :=
  ⟨⟨Reachable.init 0 0, by decide⟩,
    C3_hidden_slot_buffers_amended ⟨1, 1⟩ (initState 0 0) (Reachable.init 0 0) 0
      (by decide)⟩
